import Mathlib

/-!
Verification development for the MAKAKA archive tool (src/makakatool.cpp).

The program is shallowly embedded over lists of byte values (List Nat,
each byte taken mod 256 where the encoding requires it).  The external
compression libraries (liblzma, libzstd) are out of scope for the spec
and are modelled as explicit function parameters; the wrapper logic
around them (buffer sizing, status handling, error mapping) is taken
from the source.  Filesystem reads are modelled by passing each input
path together with an optional byte content (none models an unreadable
file); filesystem writes are modelled by returning the list of
(name, bytes) pairs the code would write.

C++ input streams are modelled by RStream: once a read fails, the fail
bit stays set and later reads do not consume bytes.  A failed raw read
into an integer variable leaves that variable uninitialized in C++;
the model takes an oracle g : Nat -> Nat supplying one arbitrary value
per failed read.  Reads into zero-initialized buffers (std::string,
std::vector) keep their zero fill for the bytes a short read does not
deliver.
-/

/-- Little-endian encoding of a natural number into w bytes. -/
def leBytes : Nat → Nat → List Nat
| 0, _ => []
| w + 1, n => n % 256 :: leBytes w (n / 256)

/-- Little-endian decoding of a byte list into a natural number. -/
def leDec : List Nat → Nat
| [] => 0
| b :: bs => b % 256 + 256 * leDec bs

/-- Magic signature constant (src/makakatool.cpp line 12). -/
def MAKAKA_SIGNATURE : Nat := 0x4D4B4B41

/-- Format version constant (src/makakatool.cpp line 13). -/
def MAKAKA_VERSION : Nat := 0x0100

/-- CompressionType enumerator values (src/makakatool.cpp lines 15-19). -/
def COMPRESS_NONE : Nat := 0

/-- CompressionType enumerator value for LZMA. -/
def COMPRESS_LZMA : Nat := 1

/-- CompressionType enumerator value for ZSTD. -/
def COMPRESS_ZSTD : Nat := 2

/-- The error kinds of spec section 7, as thrown by the code via
std::runtime_error messages. -/
inductive ArchiveError where
| ioError : String → ArchiveError
| formatError : ArchiveError
| codecError : String → ArchiveError
deriving Repr, DecidableEq

deriving instance DecidableEq for Except

/-- Model of compressWithLZMA (src/makakatool.cpp lines 21-39).
The external encoder is abstracted as lzmaEnc, giving the full encoded
stream liblzma would produce for the input; initOk models whether
lzma_easy_encoder succeeds.  The source allocates an output buffer of
input.size() * 1.5 bytes (the size_t conversion truncates, giving
3n/2 rounded down), performs a single lzma_code call whose status it
IGNORES, and returns the first total_out bytes: when the encoded stream
exceeds the buffer, the result is silently truncated to the buffer
size with no error raised. -/
def compressWithLZMA (initOk : Bool) (lzmaEnc : List Nat → List Nat)
    (input : List Nat) : Except ArchiveError (List Nat) :=
  if initOk then
    Except.ok ((lzmaEnc input).take (3 * input.length / 2))
  else
    Except.error (ArchiveError.codecError "LZMA compression initialization failed")

/-- Model of compressWithZSTD (src/makakatool.cpp lines 41-57).
zc abstracts ZSTD_compress (which always has room thanks to
ZSTD_compressBound); a library error is checked and rethrown as a
codec error. -/
def compressWithZSTD (zc : List Nat → Except String (List Nat))
    (input : List Nat) : Except ArchiveError (List Nat) :=
  match zc input with
  | Except.error e => Except.error (ArchiveError.codecError ("ZSTD compression failed: " ++ e))
  | Except.ok out => Except.ok out

/-- Model of decompressZSTD (src/makakatool.cpp lines 59-71).
zdRaw abstracts ZSTD_decompress writing into a buffer of capacity
original_size; the take enforces the capacity, and since the source
returns the whole zero-initialized buffer of length original_size
without comparing the number of written bytes against it, a shorter
decompression result is padded with zeros. -/
def decompressZSTD (zdRaw : List Nat → Nat → Except String (List Nat))
    (input : List Nat) (original_size : Nat) : Except ArchiveError (List Nat) :=
  match zdRaw input original_size with
  | Except.error e => Except.error (ArchiveError.codecError ("ZSTD decompression failed: " ++ e))
  | Except.ok written =>
      Except.ok (written.take original_size ++
        List.replicate (original_size - (written.take original_size).length) 0)

/-- Codec dispatch of the writer (src/makakatool.cpp lines 98-107). -/
def compressDispatch (initOk : Bool) (lzmaEnc : List Nat → List Nat)
    (zc : List Nat → Except String (List Nat)) (compression : Nat)
    (file_data : List Nat) : Except ArchiveError (List Nat) :=
  if compression = COMPRESS_LZMA then compressWithLZMA initOk lzmaEnc file_data
  else if compression = COMPRESS_ZSTD then compressWithZSTD zc file_data
  else Except.ok file_data

/-- Per-file loop of createArchive (src/makakatool.cpp lines 84-118).
Each input is a (path, content) pair where none models an unreadable
path: the source prints a warning and continues with the next file.
name_length is a uint32_t, so the stored name length is the path
length mod 2^32 and exactly that many bytes of the path are written. -/
def createLoop (initOk : Bool) (lzmaEnc : List Nat → List Nat)
    (zc : List Nat → Except String (List Nat)) (compression : Nat) :
    List (List Nat × Option (List Nat)) → Except ArchiveError (List Nat)
| [] => Except.ok []
| (_, none) :: rest => createLoop initOk lzmaEnc zc compression rest
| (file_path, some file_data) :: rest =>
  match compressDispatch initOk lzmaEnc zc compression file_data with
  | Except.error e => Except.error e
  | Except.ok compressed_data =>
    (createLoop initOk lzmaEnc zc compression rest).map (fun tail =>
      leBytes 4 (file_path.length % 2 ^ 32) ++ file_path.take (file_path.length % 2 ^ 32) ++
      leBytes 8 file_data.length ++ leBytes 8 compressed_data.length ++
      compressed_data ++ tail)

/-- Model of createArchive (src/makakatool.cpp lines 73-119).
The header is written BEFORE any input file is read, so the emitted
file_count is the number of input paths (mod 2^32), whether or not
they can all be read. -/
def createArchive (initOk : Bool) (lzmaEnc : List Nat → List Nat)
    (zc : List Nat → Except String (List Nat))
    (files : List (List Nat × Option (List Nat))) (compression : Nat) :
    Except ArchiveError (List Nat) :=
  (createLoop initOk lzmaEnc zc compression files).map (fun body =>
    leBytes 4 MAKAKA_SIGNATURE ++ leBytes 2 MAKAKA_VERSION ++
    leBytes 2 compression ++ leBytes 4 (files.length % 2 ^ 32) ++ body)

/-- State of a C++ ifstream over the archive bytes: remaining bytes,
fail bit, and a counter indexing the garbage oracle for values left
indeterminate by failed raw reads. -/
structure RStream where
  rem : List Nat
  bad : Bool
  ctr : Nat
deriving Repr, DecidableEq

/-- Raw in.read of k bytes into an integer variable, decoded little
endian.  A short read consumes the remaining bytes, sets the fail bit
and leaves the variable indeterminate (value supplied by the oracle);
a read on an already failed stream is a no-op with an indeterminate
value. -/
def readG (g : Nat → Nat) (k : Nat) (s : RStream) : Nat × RStream :=
  if s.bad then (g s.ctr, { s with ctr := s.ctr + 1 })
  else if k ≤ s.rem.length then
    (leDec (s.rem.take k), { s with rem := s.rem.drop k })
  else (g s.ctr, { rem := [], bad := true, ctr := s.ctr + 1 })

/-- in.read of k bytes into a zero-initialized buffer (std::string
filled with zero characters, or a value-initialized std::vector): a
short read keeps the zero fill for the missing bytes and sets the fail
bit; a read on a failed stream leaves the buffer all zeros. -/
def readZ (k : Nat) (s : RStream) : List Nat × RStream :=
  if s.bad then (List.replicate k 0, s)
  else if k ≤ s.rem.length then (s.rem.take k, { s with rem := s.rem.drop k })
  else (s.rem ++ List.replicate (k - s.rem.length) 0,
        { rem := [], bad := true, ctr := s.ctr })

/-- in.seekg(k, std::ios::cur): advances the position without decoding;
fails as a no-op when the fail bit is already set. -/
def seekCur (k : Nat) (s : RStream) : RStream :=
  if s.bad then s else { s with rem := s.rem.drop k }

/-- The fields extractArchive reads for one entry, together with the
payload bytes it consumes and the data bytes it writes to disk. -/
structure EntryInfo where
  name : List Nat
  original_size : Nat
  compressed_size : Nat
  payload : List Nat
  data : List Nat
deriving Repr, DecidableEq

/-- Codec dispatch of the reader (src/makakatool.cpp lines 168-173):
only the ZSTD enumerator value triggers decompression; every other
codec value, AlgorithmA/LZMA included, passes the stored payload
through unchanged. -/
def decompressDispatch (zdRaw : List Nat → Nat → Except String (List Nat))
    (compression : Nat) (compressed_data : List Nat) (original_size : Nat) :
    Except ArchiveError (List Nat) :=
  if compression = COMPRESS_ZSTD then decompressZSTD zdRaw compressed_data original_size
  else Except.ok compressed_data

/-- Per-entry loop of extractArchive (src/makakatool.cpp lines 149-180). -/
def extractLoop (zdRaw : List Nat → Nat → Except String (List Nat))
    (compression : Nat) (g : Nat → Nat) :
    Nat → RStream → Except ArchiveError (List EntryInfo)
| 0, _ => Except.ok []
| n + 1, s =>
  let r1 := readG g 4 s
  let r2 := readZ r1.1 r1.2
  let r3 := readG g 8 r2.2
  let r4 := readG g 8 r3.2
  let r5 := readZ r4.1 r4.2
  match decompressDispatch zdRaw compression r5.1 r3.1 with
  | Except.error e => Except.error e
  | Except.ok file_data =>
    (extractLoop zdRaw compression g n r5.2).map (fun rest =>
      { name := r2.1, original_size := r3.1, compressed_size := r4.1,
        payload := r5.1, data := file_data } :: rest)

/-- Header parse and entry walk of extractArchive
(src/makakatool.cpp lines 121-181), returning the entries read. -/
def extractEntries (zdRaw : List Nat → Nat → Except String (List Nat))
    (g : Nat → Nat) (archive : List Nat) : Except ArchiveError (List EntryInfo) :=
  let s0 : RStream := { rem := archive, bad := false, ctr := 0 }
  let rs := readG g 4 s0
  if rs.1 ≠ MAKAKA_SIGNATURE then Except.error ArchiveError.formatError
  else
    let rv := readG g 2 rs.2
    let rc := readG g 2 rv.2
    let rn := readG g 4 rc.2
    extractLoop zdRaw rc.1 g rn.1 rn.2

/-- Model of extractArchive: the ordered (file name, file bytes) pairs
it materializes under the output directory. -/
def extractArchive (zdRaw : List Nat → Nat → Except String (List Nat))
    (g : Nat → Nat) (archive : List Nat) :
    Except ArchiveError (List (List Nat × List Nat)) :=
  (extractEntries zdRaw g archive).map (List.map (fun e => (e.name, e.data)))

/-- Per-entry loop of listArchiveContents (src/makakatool.cpp lines
210-225): reads the fixed fields, reports the triple and seeks past
the payload without decoding it; no codec parameter exists. -/
def listLoop (g : Nat → Nat) : Nat → RStream → List (List Nat × Nat × Nat)
| 0, _ => []
| n + 1, s =>
  let r1 := readG g 4 s
  let r2 := readZ r1.1 r1.2
  let r3 := readG g 8 r2.2
  let r4 := readG g 8 r3.2
  let s5 := seekCur r4.1 r4.2
  (r2.1, r3.1, r4.1) :: listLoop g n s5

/-- Compression name printed by listArchiveContents
(src/makakatool.cpp lines 199-204): the switch default reports any
value other than the LZMA and ZSTD enumerators as None. -/
def codecDisplay (compression : Nat) : String :=
  if compression = COMPRESS_LZMA then "LZMA"
  else if compression = COMPRESS_ZSTD then "ZSTD"
  else "None"

/-- Model of listArchiveContents (src/makakatool.cpp lines 183-226):
the codec name it prints and the ordered
(name, original_size, compressed_size) triples it reports. -/
def listArchiveContents (g : Nat → Nat) (archive : List Nat) :
    Except ArchiveError (String × List (List Nat × Nat × Nat)) :=
  let s0 : RStream := { rem := archive, bad := false, ctr := 0 }
  let rs := readG g 4 s0
  if rs.1 ≠ MAKAKA_SIGNATURE then Except.error ArchiveError.formatError
  else
    let rv := readG g 2 rs.2
    let rc := readG g 2 rv.2
    let rn := readG g 4 rc.2
    Except.ok (codecDisplay rc.1, listLoop g rn.1 rn.2)

/-- Declared entry count field of an archive byte stream (bytes 8-11,
little endian). -/
def declaredCount (a : List Nat) : Nat := leDec ((a.drop 8).take 4)

/-- Codec field of an archive byte stream (bytes 6-7, little endian). -/
def codecOf (a : List Nat) : Nat := leDec ((a.drop 6).take 2)

/-- Well-formedness of an archive byte stream per the layout table of
spec section 6: full header with matching signature, and declaredCount
complete entry records, each with its full fixed fields and a payload
of exactly compressed_size bytes.  The checks mirror the reads of the
readers step by step. -/
def entriesFit : Nat → List Nat → Bool
| 0, _ => true
| n + 1, b =>
  if 4 ≤ b.length then
    let nl := leDec (b.take 4)
    let b1 := b.drop 4
    if nl ≤ b1.length then
      let b2 := b1.drop nl
      if 8 ≤ b2.length then
        let b3 := b2.drop 8
        if 8 ≤ b3.length then
          let cs := leDec (b3.take 8)
          let b4 := b3.drop 8
          if cs ≤ b4.length then entriesFit n (b4.drop cs) else false
        else false
      else false
    else false
  else false

/-- Well-formed archive stream: long enough header, correct signature
bytes, and exactly the declared number of complete entry records. -/
def wfArchive (a : List Nat) : Bool :=
  decide (12 ≤ a.length) && decide (a.take 4 = leBytes 4 MAKAKA_SIGNATURE) &&
  entriesFit (declaredCount a) (a.drop 12)

/-- Greedy count of complete entry records parseable from an entry
section, fuelled by the byte count (each record takes at least 20
bytes). -/
def fitCount : Nat → List Nat → Nat
| 0, _ => 0
| fuel + 1, b =>
  if 4 ≤ b.length then
    let nl := leDec (b.take 4)
    let b1 := b.drop 4
    if nl ≤ b1.length then
      let b2 := b1.drop nl
      if 8 ≤ b2.length then
        let b3 := b2.drop 8
        if 8 ≤ b3.length then
          let cs := leDec (b3.take 8)
          let b4 := b3.drop 8
          if cs ≤ b4.length then 1 + fitCount fuel (b4.drop cs) else 0
        else 0
      else 0
    else 0
  else 0

/-- Number of complete entry records present in an entry section. -/
def entryRecordCount (b : List Nat) : Nat := fitCount b.length b

/-! Basic facts about the byte encoding and the stream primitives. -/

theorem leBytes_length (w n : Nat) : (leBytes w n).length = w := by
  induction w generalizing n with
  | zero => rfl
  | succ w ih => simp [leBytes, ih]

theorem leDec_leBytes (w n : Nat) : leDec (leBytes w n) = n % 256 ^ w := by
  induction w generalizing n with
  | zero => simp [leBytes, leDec, Nat.mod_one]
  | succ w ih =>
      rw [leBytes, leDec, ih, Nat.mod_mod_of_dvd _ (by norm_num), pow_succ,
        mul_comm (256 ^ w) 256, Nat.mod_mul]

theorem leBytes_leDec (bs : List Nat) (h : ∀ x ∈ bs, x < 256) :
    leBytes bs.length (leDec bs) = bs := by
  induction bs with
  | nil => rfl
  | cons b bs ih =>
      have hb : b < 256 := h b (by simp)
      have hrest : ∀ x ∈ bs, x < 256 := fun x hx => h x (by simp [hx])
      simp only [List.length_cons, leBytes, leDec]
      have hmod : (b % 256 + 256 * leDec bs) % 256 = b := by
        rw [Nat.add_mul_mod_self_left]
        omega
      have hdiv : (b % 256 + 256 * leDec bs) / 256 = leDec bs := by
        rw [Nat.add_mul_div_left _ _ (by norm_num : (0:Nat) < 256),
          Nat.div_eq_of_lt (Nat.mod_lt _ (by norm_num))]
        omega
      rw [hmod, hdiv, ih hrest]

theorem readG_ok (g : Nat → Nat) (k : Nat) (x r : List Nat) (c : Nat)
    (h : x.length = k) :
    readG g k { rem := x ++ r, bad := false, ctr := c } =
      (leDec x, { rem := r, bad := false, ctr := c }) := by
  have hk : k ≤ x.length + r.length := by omega
  simp [readG, hk, List.length_append, List.take_left' h, List.drop_left' h]

theorem readZ_ok (k : Nat) (x r : List Nat) (c : Nat) (h : x.length = k) :
    readZ k { rem := x ++ r, bad := false, ctr := c } =
      (x, { rem := r, bad := false, ctr := c }) := by
  have hk : k ≤ x.length + r.length := by omega
  simp [readZ, hk, List.length_append, List.take_left' h, List.drop_left' h]

theorem readG_take (g : Nat → Nat) (k : Nat) (x : List Nat) (c : Nat)
    (h : k ≤ x.length) :
    readG g k { rem := x, bad := false, ctr := c } =
      (leDec (x.take k), { rem := x.drop k, bad := false, ctr := c }) := by
  simp [readG, h]

theorem readZ_take (k : Nat) (x : List Nat) (c : Nat) (h : k ≤ x.length) :
    readZ k { rem := x, bad := false, ctr := c } =
      (x.take k, { rem := x.drop k, bad := false, ctr := c }) := by
  simp [readZ, h]

theorem seekCur_ok (k : Nat) (x : List Nat) (c : Nat) :
    seekCur k { rem := x, bad := false, ctr := c } =
      { rem := x.drop k, bad := false, ctr := c } := by
  simp [seekCur]

/-- Projection from the entry fields extraction reads to the triple
listing reports. -/
def entryTriple (e : EntryInfo) : List Nat × Nat × Nat :=
  (e.name, e.original_size, e.compressed_size)

theorem extractEntries_wf (zdRaw : List Nat → Nat → Except String (List Nat))
    (g : Nat → Nat) (a : List Nat) (h12 : 12 ≤ a.length)
    (hsig : a.take 4 = leBytes 4 MAKAKA_SIGNATURE) :
    extractEntries zdRaw g a =
      extractLoop zdRaw (codecOf a) g (declaredCount a)
        { rem := a.drop 12, bad := false, ctr := 0 } := by
  have h4 : 4 ≤ a.length := by omega
  have hval : leDec (a.take 4) = MAKAKA_SIGNATURE := by
    rw [hsig, leDec_leBytes]; decide
  have h2 : 2 ≤ (a.drop 4).length := by simp [List.length_drop]; omega
  have h2' : 2 ≤ ((a.drop 4).drop 2).length := by simp [List.length_drop]; omega
  have h4' : 4 ≤ (((a.drop 4).drop 2).drop 2).length := by simp [List.length_drop]; omega
  rw [extractEntries]
  simp only [readG_take g 4 a 0 h4, hval]
  rw [if_neg (by simp)]
  simp only [readG_take g 2 (a.drop 4) 0 h2, readG_take g 2 ((a.drop 4).drop 2) 0 h2',
    readG_take g 4 (((a.drop 4).drop 2).drop 2) 0 h4']
  rw [List.drop_drop, List.drop_drop, List.drop_drop]
  norm_num [codecOf, declaredCount]

theorem listArchiveContents_wf (g : Nat → Nat) (a : List Nat) (h12 : 12 ≤ a.length)
    (hsig : a.take 4 = leBytes 4 MAKAKA_SIGNATURE) :
    listArchiveContents g a =
      Except.ok (codecDisplay (codecOf a),
        listLoop g (declaredCount a) { rem := a.drop 12, bad := false, ctr := 0 }) := by
  have h4 : 4 ≤ a.length := by omega
  have hval : leDec (a.take 4) = MAKAKA_SIGNATURE := by
    rw [hsig, leDec_leBytes]; decide
  have h2 : 2 ≤ (a.drop 4).length := by simp [List.length_drop]; omega
  have h2' : 2 ≤ ((a.drop 4).drop 2).length := by simp [List.length_drop]; omega
  have h4' : 4 ≤ (((a.drop 4).drop 2).drop 2).length := by simp [List.length_drop]; omega
  rw [listArchiveContents]
  simp only [readG_take g 4 a 0 h4, hval]
  rw [if_neg (by simp)]
  simp only [readG_take g 2 (a.drop 4) 0 h2, readG_take g 2 ((a.drop 4).drop 2) 0 h2',
    readG_take g 4 (((a.drop 4).drop 2).drop 2) 0 h4']
  rw [List.drop_drop, List.drop_drop, List.drop_drop]
  norm_num [codecOf, declaredCount]

theorem extractLoop_pass (compression : Nat) (hc : compression ≠ COMPRESS_ZSTD) :
    ∀ (n : Nat) (b : List Nat), entriesFit n b = true →
      ∃ es : List EntryInfo,
        (∀ zdRaw g c,
          extractLoop zdRaw compression g n { rem := b, bad := false, ctr := c } =
            Except.ok es) ∧
        ∀ e ∈ es, e.data = e.payload := by
  intro n
  induction n with
  | zero =>
      intro b _
      exact ⟨[], fun zdRaw g c => rfl, by simp⟩
  | succ n ih =>
      intro b hfit
      simp only [entriesFit] at hfit
      split_ifs at hfit with h4 hnl h8 h8' hcs
      obtain ⟨es, hes, hdat⟩ := ih _ hfit
      refine ⟨{ name := (b.drop 4).take (leDec (b.take 4)),
                original_size := leDec ((((b.drop 4).drop (leDec (b.take 4)))).take 8),
                compressed_size :=
                  leDec (((((b.drop 4).drop (leDec (b.take 4)))).drop 8).take 8),
                payload := ((((((b.drop 4).drop (leDec (b.take 4)))).drop 8).drop 8)).take
                  (leDec (((((b.drop 4).drop (leDec (b.take 4)))).drop 8).take 8)),
                data := ((((((b.drop 4).drop (leDec (b.take 4)))).drop 8).drop 8)).take
                  (leDec (((((b.drop 4).drop (leDec (b.take 4)))).drop 8).take 8)) } :: es,
              ?_, ?_⟩
      · intro zdRaw g c
        rw [extractLoop]
        simp only [readG_take g 4 b c h4]
        simp only [readZ_take _ _ _ hnl]
        simp only [readG_take g 8 _ c h8]
        simp only [readG_take g 8 _ c h8']
        simp only [readZ_take _ _ _ hcs]
        simp only [decompressDispatch, if_neg hc]
        rw [hes zdRaw g c]
        rfl
      · intro e he
        rcases List.mem_cons.mp he with h | h
        · subst h; rfl
        · exact hdat e h

theorem listLoop_matches (compression : Nat)
    (zdRaw : List Nat → Nat → Except String (List Nat)) (g g' : Nat → Nat) :
    ∀ (n : Nat) (b : List Nat) (c c' : Nat) (es : List EntryInfo),
      entriesFit n b = true →
      extractLoop zdRaw compression g n { rem := b, bad := false, ctr := c } =
        Except.ok es →
      listLoop g' n { rem := b, bad := false, ctr := c' } = es.map entryTriple := by
  intro n
  induction n with
  | zero =>
      intro b c c' es _ hex
      rw [extractLoop] at hex
      obtain rfl : ([] : List EntryInfo) = es := by
        simpa using hex
      rfl
  | succ n ih =>
      intro b c c' es hfit hex
      simp only [entriesFit] at hfit
      split_ifs at hfit with h4 hnl h8 h8' hcs
      rw [extractLoop] at hex
      simp only [readG_take g 4 b c h4, readZ_take _ _ _ hnl, readG_take g 8 _ c h8,
        readG_take g 8 _ c h8', readZ_take _ _ _ hcs] at hex
      cases hdd : decompressDispatch zdRaw compression
          (((((b.drop 4).drop (leDec (b.take 4))).drop 8).drop 8).take
            (leDec ((((b.drop 4).drop (leDec (b.take 4))).drop 8).take 8)))
          (leDec (((b.drop 4).drop (leDec (b.take 4))).take 8)) with
      | error e => rw [hdd] at hex; simp at hex
      | ok fd =>
          rw [hdd] at hex
          cases hrec : extractLoop zdRaw compression g n
              { rem := ((((b.drop 4).drop (leDec (b.take 4))).drop 8).drop 8).drop
                  (leDec ((((b.drop 4).drop (leDec (b.take 4))).drop 8).take 8)),
                bad := false, ctr := c } with
          | error e => rw [hrec] at hex; simp [Except.map] at hex
          | ok es' =>
              rw [hrec] at hex
              simp only [Except.map, Except.ok.injEq] at hex
              subst hex
              rw [listLoop]
              simp only [readG_take g' 4 b c' h4, readZ_take _ _ _ hnl,
                readG_take g' 8 _ c' h8, readG_take g' 8 _ c' h8', seekCur_ok]
              rw [ih _ c c' es' hfit hrec]
              rfl

theorem createExtract_loop (initOk : Bool) (lzmaEnc : List Nat → List Nat)
    (zc : List Nat → Except String (List Nat))
    (zdRaw : List Nat → Nat → Except String (List Nat)) (g : Nat → Nat)
    (compression : Nat)
    (hcomp : compression = COMPRESS_NONE ∨ compression = COMPRESS_ZSTD) :
    ∀ (files : List (List Nat × List Nat)) (c : Nat),
      (∀ f ∈ files, f.1.length < 2 ^ 32 ∧ f.2.length < 2 ^ 64 ∧
        (compression = COMPRESS_ZSTD → ∃ cb, zc f.2 = Except.ok cb ∧
          cb.length < 2 ^ 64 ∧ zdRaw cb f.2.length = Except.ok f.2)) →
      ∃ body : List Nat,
        createLoop initOk lzmaEnc zc compression
          (files.map fun f => (f.1, some f.2)) = Except.ok body ∧
        ∃ es : List EntryInfo,
          extractLoop zdRaw compression g files.length
            { rem := body, bad := false, ctr := c } = Except.ok es ∧
          es.map (fun e => (e.name, e.data)) = files := by
  intro files
  induction files with
  | nil =>
      intro c _
      exact ⟨[], rfl, [], rfl, rfl⟩
  | cons f rest ih =>
      intro c hall
      obtain ⟨hn1, hn2, hz⟩ := hall f (List.mem_cons_self f rest)
      obtain ⟨body', hbody', es', hes', hmap'⟩ :=
        ih c (fun f' hf' => hall f' (List.mem_cons_of_mem f hf'))
      obtain ⟨cb, hcb, hcbl, hdec⟩ :
          ∃ cb, compressDispatch initOk lzmaEnc zc compression f.2 = Except.ok cb ∧
            cb.length < 2 ^ 64 ∧
            decompressDispatch zdRaw compression cb f.2.length = Except.ok f.2 := by
        rcases hcomp with h | h
        · subst h
          refine ⟨f.2, ?_, hn2, ?_⟩
          · simp [compressDispatch, COMPRESS_NONE, COMPRESS_LZMA, COMPRESS_ZSTD]
          · simp [decompressDispatch, COMPRESS_NONE, COMPRESS_ZSTD]
        · subst h
          obtain ⟨cb, hzc, hcl, hzd⟩ := hz rfl
          refine ⟨cb, ?_, hcl, ?_⟩
          · simp [compressDispatch, compressWithZSTD, COMPRESS_LZMA, COMPRESS_ZSTD, hzc]
          · simp [decompressDispatch, decompressZSTD, COMPRESS_ZSTD, hzd, List.take_length]
      have hn : f.1.length % 2 ^ 32 = f.1.length := Nat.mod_eq_of_lt hn1
      have e1 : f.1.length % 256 ^ 4 = f.1.length :=
        Nat.mod_eq_of_lt (lt_of_lt_of_eq hn1 (by norm_num))
      have e2 : f.2.length % 256 ^ 8 = f.2.length :=
        Nat.mod_eq_of_lt (lt_of_lt_of_eq hn2 (by norm_num))
      have e3 : cb.length % 256 ^ 8 = cb.length :=
        Nat.mod_eq_of_lt (lt_of_lt_of_eq hcbl (by norm_num))
      refine ⟨leBytes 4 f.1.length ++ (f.1 ++ (leBytes 8 f.2.length ++
        (leBytes 8 cb.length ++ (cb ++ body')))), ?_, ?_⟩
      · have hn' : f.1.length % 4294967296 = f.1.length := by omega
        rw [List.map_cons]
        rw [createLoop, hcb, hbody']
        simp [Except.map, hn', List.take_length]
      · refine ⟨(⟨f.1, f.2.length, cb.length, cb, f.2⟩ : EntryInfo) :: es', ?_, ?_⟩
        · rw [List.length_cons, extractLoop]
          simp only [readG_ok, readZ_ok, leBytes_length, leDec_leBytes, e1, e2, e3]
          rw [hdec, hes']
          rfl
        · simp [hmap']

/-- C1: for every list of input files whose contents are all readable
and for codec None or ZSTD (with the external ZSTD library satisfying
its round-trip contract on those contents), extracting the archive
produced by createArchive materializes, for every input file, a file
whose bytes equal the original bytes, in the same order as the
inputs. -/
theorem c1_create_extract_roundtrip (initOk : Bool) (lzmaEnc : List Nat → List Nat)
    (zc : List Nat → Except String (List Nat))
    (zdRaw : List Nat → Nat → Except String (List Nat)) (g : Nat → Nat)
    (compression : Nat)
    (hcomp : compression = COMPRESS_NONE ∨ compression = COMPRESS_ZSTD)
    (files : List (List Nat × List Nat))
    (hcount : files.length < 2 ^ 32)
    (hfiles : ∀ f ∈ files, f.1.length < 2 ^ 32 ∧ f.2.length < 2 ^ 64 ∧
      (compression = COMPRESS_ZSTD → ∃ cb, zc f.2 = Except.ok cb ∧
        cb.length < 2 ^ 64 ∧ zdRaw cb f.2.length = Except.ok f.2)) :
    ∃ a, createArchive initOk lzmaEnc zc
        (files.map fun f => (f.1, some f.2)) compression = Except.ok a ∧
      extractArchive zdRaw g a = Except.ok files := by
  obtain ⟨body, hbody, es, hes, hmap⟩ :=
    createExtract_loop initOk lzmaEnc zc zdRaw g compression hcomp files 0 hfiles
  have hsig : MAKAKA_SIGNATURE % 256 ^ 4 = MAKAKA_SIGNATURE := by decide
  have ecomp : compression % 256 ^ 2 = compression := by
    rcases hcomp with h | h <;> subst h <;> decide
  have ecnt : files.length % 2 ^ 32 = files.length := Nat.mod_eq_of_lt hcount
  have ecnt2 : files.length % 256 ^ 4 = files.length :=
    Nat.mod_eq_of_lt (lt_of_lt_of_eq hcount (by norm_num))
  refine ⟨leBytes 4 MAKAKA_SIGNATURE ++ (leBytes 2 MAKAKA_VERSION ++
    (leBytes 2 compression ++ (leBytes 4 files.length ++ body))), ?_, ?_⟩
  · have ecnt' : files.length % 4294967296 = files.length := by
      have h : (2:Nat) ^ 32 = 4294967296 := by norm_num
      omega
    rw [createArchive, hbody]
    simp [Except.map, List.length_map, ecnt, ecnt']
  · rw [extractArchive, extractEntries]
    simp only [readG_ok, readZ_ok, leBytes_length, leDec_leBytes, hsig, ecomp, ecnt2]
    rw [if_neg (by simp)]
    rw [hes]
    simp [Except.map, hmap]

theorem c1_witness :
    ∃ a, createArchive true (fun _ => []) (fun b => Except.ok b)
        ([([65], [66, 67])].map fun f => (f.1, some f.2)) COMPRESS_NONE = Except.ok a ∧
      extractArchive (fun b _ => Except.ok b) (fun _ => 0) a =
        Except.ok [([65], [66, 67])] :=
  c1_create_extract_roundtrip true (fun _ => []) (fun b => Except.ok b)
    (fun b _ => Except.ok b) (fun _ => 0) COMPRESS_NONE (Or.inl rfl)
    [([65], [66, 67])] (by decide)
    (fun f hf => by
      rcases List.mem_singleton.mp hf with rfl
      exact ⟨by decide, by decide, fun h => absurd h (by decide)⟩)

/-- C6: feeding either reader a stream of at least 4 bytes whose
leading 4 bytes are not the magic signature yields a format error and
nothing else: no file pairs are produced and no entries are listed,
since both models return only the error. -/
theorem c6_bad_signature_rejected (zdRaw : List Nat → Nat → Except String (List Nat))
    (g g' : Nat → Nat) (a : List Nat) (h4 : 4 ≤ a.length)
    (hbytes : ∀ x ∈ a.take 4, x < 256)
    (hsig : a.take 4 ≠ leBytes 4 MAKAKA_SIGNATURE) :
    extractArchive zdRaw g a = Except.error ArchiveError.formatError ∧
    listArchiveContents g' a = Except.error ArchiveError.formatError := by
  have hlen : (a.take 4).length = 4 := by
    rw [List.length_take]
    omega
  have hne : leDec (a.take 4) ≠ MAKAKA_SIGNATURE := by
    intro h
    apply hsig
    have := leBytes_leDec (a.take 4) hbytes
    rw [hlen, h] at this
    exact this.symm
  constructor
  · rw [extractArchive, extractEntries]
    simp only [readG_take g 4 a 0 h4]
    rw [if_pos hne]
    rfl
  · rw [listArchiveContents]
    simp only [readG_take g' 4 a 0 h4]
    rw [if_pos hne]

theorem c6_witness :
    extractArchive (fun b _ => Except.ok b) (fun _ => 0) [0, 0, 0, 0] =
        Except.error ArchiveError.formatError ∧
      listArchiveContents (fun _ => 0) [0, 0, 0, 0] =
        Except.error ArchiveError.formatError :=
  c6_bad_signature_rejected (fun b _ => Except.ok b) (fun _ => 0) (fun _ => 0)
    [0, 0, 0, 0] (by decide) (by decide) (by decide)

/-- C2 evaluation: packing one readable file (one-byte name, three
bytes of content) followed by one unreadable file with codec None
produces an archive whose header entry_count field is 2, the number of
INPUT paths, while the body holds exactly one complete entry record;
the claim expects entry_count 1. -/
theorem c2_entry_count_mismatch :
    ∃ a, createArchive true (fun _ => []) (fun b => Except.ok b)
        [([118], some [65, 66, 67]), ([109], none)] COMPRESS_NONE = Except.ok a ∧
      declaredCount a = 2 ∧ entryRecordCount (a.drop 12) = 1 :=
  ⟨_, rfl, by decide, by decide⟩

/-- C7 evaluation: a stream with a valid signature and header that
declares one entry but ends right after the header (total 12 bytes) is
truncated, yet both readers run to completion and return success:
listing reports one garbage triple and extraction writes one empty
file; neither raises any error, let alone a format error. -/
theorem c7_truncated_completes :
    declaredCount (leBytes 4 MAKAKA_SIGNATURE ++ (leBytes 2 MAKAKA_VERSION ++
        (leBytes 2 COMPRESS_NONE ++ leBytes 4 1))) = 1 ∧
    (leBytes 4 MAKAKA_SIGNATURE ++ (leBytes 2 MAKAKA_VERSION ++
        (leBytes 2 COMPRESS_NONE ++ leBytes 4 1))).length = 12 ∧
    listArchiveContents (fun _ => 0) (leBytes 4 MAKAKA_SIGNATURE ++
        (leBytes 2 MAKAKA_VERSION ++ (leBytes 2 COMPRESS_NONE ++ leBytes 4 1))) =
      Except.ok ("None", [([], 0, 0)]) ∧
    extractArchive (fun b _ => Except.ok b) (fun _ => 0)
        (leBytes 4 MAKAKA_SIGNATURE ++ (leBytes 2 MAKAKA_VERSION ++
          (leBytes 2 COMPRESS_NONE ++ leBytes 4 1))) =
      Except.ok [([], [])] := by decide

/-- C8 evaluation: with an encoder whose stream for the one-byte input
has 32 bytes (any real xz stream is at least that large) and a
successfully initialized encoder, compressWithLZMA returns a one-byte
buffer as success: the 1.5x output buffer truncates the stream and the
ignored lzma_code status turns a codec failure into a silently wrong
result instead of a codec error. -/
theorem c8_lzma_silent_truncation :
    compressWithLZMA true (fun _ => List.replicate 32 1) [7] = Except.ok [1] := by
  decide

/-- C4 evaluation: the compressor for codec AlgorithmA truncates its
output (here a 40-byte encoded stream is cut to one byte), and the
only decompression the reader ever applies for that codec is the
identity, even when a decompressor that would reject the payload is
available, so decompress(compress [7]) yields [3], not [7]. -/
theorem c4_lzma_roundtrip_fails :
    compressWithLZMA true (fun _ => List.replicate 40 3) [7] = Except.ok [3] ∧
    decompressDispatch (fun _ _ => Except.error "not wired") COMPRESS_LZMA [3] 1 =
      Except.ok [3] ∧
    ([3] : List Nat) ≠ [7] := by decide

theorem wfArchive_unpack (a : List Nat) (h : wfArchive a = true) :
    12 ≤ a.length ∧ a.take 4 = leBytes 4 MAKAKA_SIGNATURE ∧
      entriesFit (declaredCount a) (a.drop 12) = true := by
  simp only [wfArchive, Bool.and_eq_true, decide_eq_true_eq] at h
  exact ⟨h.1.1, h.1.2, h.2⟩

/-- C3: on a well-formed archive whose header codec field is the LZMA
enumerator, extraction never invokes any decompression: its result is
the same for every decompressor, and every extracted entry writes the
stored payload bytes unchanged.  Only the ZSTD enumerator value
triggers decompression in the reader dispatch. -/
theorem c3_lzma_extraction_passthrough (a : List Nat)
    (hwf : wfArchive a = true) (hc : codecOf a = COMPRESS_LZMA) :
    ∃ es, (∀ zdRaw g, extractEntries zdRaw g a = Except.ok es) ∧
      ∀ e ∈ es, e.data = e.payload := by
  obtain ⟨h12, hsig, hfit⟩ := wfArchive_unpack a hwf
  obtain ⟨es, hes, hdat⟩ := extractLoop_pass (codecOf a) (by rw [hc]; decide)
    (declaredCount a) (a.drop 12) hfit
  refine ⟨es, ?_, hdat⟩
  intro zdRaw g
  rw [extractEntries_wf zdRaw g a h12 hsig]
  exact hes zdRaw g 0

theorem c3_witness :
    ∃ es, (∀ zdRaw g, extractEntries zdRaw g
        [65, 75, 75, 77, 0, 1, 1, 0, 1, 0, 0, 0,
         1, 0, 0, 0, 65, 5, 0, 0, 0, 0, 0, 0, 0, 2, 0, 0, 0, 0, 0, 0, 0, 9, 9] =
      Except.ok es) ∧ ∀ e ∈ es, e.data = e.payload :=
  c3_lzma_extraction_passthrough
    [65, 75, 75, 77, 0, 1, 1, 0, 1, 0, 0, 0,
     1, 0, 0, 0, 65, 5, 0, 0, 0, 0, 0, 0, 0, 2, 0, 0, 0, 0, 0, 0, 0, 9, 9]
    (by decide) (by decide)

/-- C10 counterexample: a well-formed archive whose codec field is 1
(a value other than the ZSTD enumerator, squarely within the scope of
the claim) is reported by listArchiveContents as LZMA, not as the None
codec the claim asserts for every non-ZSTD value. -/
theorem c10_counterexample :
    listArchiveContents (fun _ => 0)
        [65, 75, 75, 77, 0, 1, 1, 0, 0, 0, 0, 0] =
      Except.ok ("LZMA", []) ∧ ("LZMA" : String) ≠ "None" := by decide

/-- C10 amended: on a well-formed archive whose codec field holds any
value other than the ZSTD enumerator, neither reader validates or
rejects the codec field: extraction takes the pass-through branch,
writing payload bytes unmodified for every decompressor, and listing
succeeds, reporting values outside the defined pair LZMA/ZSTD as the
None codec (the LZMA value itself is reported as LZMA). -/
theorem c10_nonzstd_codec_accepted (a : List Nat)
    (hwf : wfArchive a = true) (hc : codecOf a ≠ COMPRESS_ZSTD) :
    (∃ es, (∀ zdRaw g, extractEntries zdRaw g a = Except.ok es) ∧
      ∀ e ∈ es, e.data = e.payload) ∧
    ∀ g, ∃ r, listArchiveContents g a = Except.ok r ∧
      (codecOf a ≠ COMPRESS_LZMA → r.1 = "None") := by
  obtain ⟨h12, hsig, hfit⟩ := wfArchive_unpack a hwf
  constructor
  · obtain ⟨es, hes, hdat⟩ := extractLoop_pass (codecOf a) hc
      (declaredCount a) (a.drop 12) hfit
    refine ⟨es, ?_, hdat⟩
    intro zdRaw g
    rw [extractEntries_wf zdRaw g a h12 hsig]
    exact hes zdRaw g 0
  · intro g
    refine ⟨_, listArchiveContents_wf g a h12 hsig, ?_⟩
    intro h1
    simp [codecDisplay, h1, hc]

theorem c10_witness :
    (∃ es, (∀ zdRaw g, extractEntries zdRaw g
        [65, 75, 75, 77, 0, 1, 5, 0, 1, 0, 0, 0,
         1, 0, 0, 0, 66, 0, 0, 0, 0, 0, 0, 0, 0, 1, 0, 0, 0, 0, 0, 0, 0, 4] =
      Except.ok es) ∧ ∀ e ∈ es, e.data = e.payload) ∧
    ∀ g, ∃ r, listArchiveContents g
        [65, 75, 75, 77, 0, 1, 5, 0, 1, 0, 0, 0,
         1, 0, 0, 0, 66, 0, 0, 0, 0, 0, 0, 0, 0, 1, 0, 0, 0, 0, 0, 0, 0, 4] =
      Except.ok r ∧ (codecOf
        [65, 75, 75, 77, 0, 1, 5, 0, 1, 0, 0, 0,
         1, 0, 0, 0, 66, 0, 0, 0, 0, 0, 0, 0, 0, 1, 0, 0, 0, 0, 0, 0, 0, 4] ≠
        COMPRESS_LZMA → r.1 = "None") :=
  c10_nonzstd_codec_accepted
    [65, 75, 75, 77, 0, 1, 5, 0, 1, 0, 0, 0,
     1, 0, 0, 0, 66, 0, 0, 0, 0, 0, 0, 0, 0, 1, 0, 0, 0, 0, 0, 0, 0, 4]
    (by decide) (by decide)

/-- C5: on a well-formed archive, whenever extraction reads a list of
entries, listing the same stream reports exactly the
(name, original_size, compressed_size) triples of those entries, in
the same order, regardless of either reader's oracle; listArchiveContents
takes no codec and invokes none by construction. -/
theorem c5_list_reports_extract_triples (a : List Nat)
    (zdRaw : List Nat → Nat → Except String (List Nat)) (g g' : Nat → Nat)
    (es : List EntryInfo)
    (hwf : wfArchive a = true)
    (hex : extractEntries zdRaw g a = Except.ok es) :
    listArchiveContents g' a =
      Except.ok (codecDisplay (codecOf a), es.map entryTriple) := by
  obtain ⟨h12, hsig, hfit⟩ := wfArchive_unpack a hwf
  rw [extractEntries_wf zdRaw g a h12 hsig] at hex
  rw [listArchiveContents_wf g' a h12 hsig,
    listLoop_matches (codecOf a) zdRaw g g' (declaredCount a) (a.drop 12) 0 0 es hfit hex]

theorem c5_witness :
    listArchiveContents (fun _ => 0)
        [65, 75, 75, 77, 0, 1, 0, 0, 1, 0, 0, 0,
         1, 0, 0, 0, 65, 1, 0, 0, 0, 0, 0, 0, 0, 1, 0, 0, 0, 0, 0, 0, 0, 66] =
      Except.ok ("None", [([65], 1, 1)]) :=
  (c5_list_reports_extract_triples
    [65, 75, 75, 77, 0, 1, 0, 0, 1, 0, 0, 0,
     1, 0, 0, 0, 65, 1, 0, 0, 0, 0, 0, 0, 0, 1, 0, 0, 0, 0, 0, 0, 0, 66]
    (fun b _ => Except.ok b) (fun _ => 0) (fun _ => 0)
    [⟨[65], 1, 1, [66], [66]⟩] (by decide) (by decide)).trans (by decide)

/-- C9: packing a file with codec None stores an entry whose
compressed_size field equals its original_size field and whose payload
is the raw file bytes (the writer dispatch applies no transformation
and extraction passes the payload through); in particular packing a
0-byte file yields original_size 0, compressed_size 0 and an empty
payload, and extracting it recreates an empty file. -/
theorem c9_none_codec_identity (initOk : Bool) (lzmaEnc : List Nat → List Nat)
    (zc : List Nat → Except String (List Nat))
    (zdRaw : List Nat → Nat → Except String (List Nat)) (g : Nat → Nat)
    (name data : List Nat) (hn : name.length < 2 ^ 32) (hd : data.length < 2 ^ 64) :
    createArchive initOk lzmaEnc zc [(name, some data)] COMPRESS_NONE =
      Except.ok (leBytes 4 MAKAKA_SIGNATURE ++ (leBytes 2 MAKAKA_VERSION ++
        (leBytes 2 COMPRESS_NONE ++ (leBytes 4 1 ++ (leBytes 4 name.length ++ (name ++
          (leBytes 8 data.length ++ (leBytes 8 data.length ++ data)))))))) ∧
    extractArchive zdRaw g (leBytes 4 MAKAKA_SIGNATURE ++ (leBytes 2 MAKAKA_VERSION ++
        (leBytes 2 COMPRESS_NONE ++ (leBytes 4 1 ++ (leBytes 4 name.length ++ (name ++
          (leBytes 8 data.length ++ (leBytes 8 data.length ++ data)))))))) =
      Except.ok [(name, data)] ∧
    ∃ a0, createArchive true (fun _ => []) (fun b => Except.ok b)
        [([101], some [])] COMPRESS_NONE = Except.ok a0 ∧
      extractArchive (fun b _ => Except.ok b) (fun _ => 0) a0 =
        Except.ok [([101], [])] := by
  have hn' : name.length % 2 ^ 32 = name.length := Nat.mod_eq_of_lt hn
  have hn'' : name.length % 4294967296 = name.length := by
    have h : (2:Nat) ^ 32 = 4294967296 := by norm_num
    omega
  have e1 : name.length % 256 ^ 4 = name.length :=
    Nat.mod_eq_of_lt (lt_of_lt_of_eq hn (by norm_num))
  have e2 : data.length % 256 ^ 8 = data.length :=
    Nat.mod_eq_of_lt (lt_of_lt_of_eq hd (by norm_num))
  have hcd : compressDispatch initOk lzmaEnc zc COMPRESS_NONE data = Except.ok data := by
    simp [compressDispatch, COMPRESS_NONE, COMPRESS_LZMA, COMPRESS_ZSTD]
  refine ⟨?_, ?_, ⟨_, rfl, by decide⟩⟩
  · rw [createArchive, createLoop, hcd, createLoop]
    simp [Except.map, hn', hn'', List.take_length]
  · have hsig : MAKAKA_SIGNATURE % 256 ^ 4 = MAKAKA_SIGNATURE := by decide
    have ec : COMPRESS_NONE % 256 ^ 2 = COMPRESS_NONE := by decide
    have e32 : (1:Nat) % 256 ^ 4 = 1 := by decide
    have hloop : extractLoop zdRaw COMPRESS_NONE g 1
        { rem := leBytes 4 name.length ++ (name ++ (leBytes 8 data.length ++
            (leBytes 8 data.length ++ data))),
          bad := false, ctr := 0 } =
        Except.ok [⟨name, data.length, data.length, data, data⟩] := by
      show extractLoop zdRaw COMPRESS_NONE g (0 + 1) _ = _
      rw [extractLoop]
      simp only [readG_ok, readZ_ok, leBytes_length, leDec_leBytes, e1, e2,
        readZ_take, le_refl, List.take_length, List.drop_length]
      simp only [decompressDispatch,
        if_neg (show ¬(COMPRESS_NONE = COMPRESS_ZSTD) by decide)]
      rw [extractLoop]
      rfl
    rw [extractArchive, extractEntries]
    simp only [readG_ok, leBytes_length, leDec_leBytes, hsig, ec, e32]
    rw [if_neg (by simp)]
    rw [hloop]
    simp [Except.map]

theorem c9_witness :
    createArchive true (fun _ => []) (fun b => Except.ok b)
        [([65], some [66, 67])] COMPRESS_NONE =
      Except.ok (leBytes 4 MAKAKA_SIGNATURE ++ (leBytes 2 MAKAKA_VERSION ++
        (leBytes 2 COMPRESS_NONE ++ (leBytes 4 1 ++ (leBytes 4 [65].length ++ ([65] ++
          (leBytes 8 [66, 67].length ++ (leBytes 8 [66, 67].length ++ [66, 67])))))))) ∧
    extractArchive (fun b _ => Except.ok b) (fun _ => 0)
        (leBytes 4 MAKAKA_SIGNATURE ++ (leBytes 2 MAKAKA_VERSION ++
        (leBytes 2 COMPRESS_NONE ++ (leBytes 4 1 ++ (leBytes 4 [65].length ++ ([65] ++
          (leBytes 8 [66, 67].length ++ (leBytes 8 [66, 67].length ++ [66, 67])))))))) =
      Except.ok [([65], [66, 67])] ∧
    ∃ a0, createArchive true (fun _ => []) (fun b => Except.ok b)
        [([101], some [])] COMPRESS_NONE = Except.ok a0 ∧
      extractArchive (fun b _ => Except.ok b) (fun _ => 0) a0 =
        Except.ok [([101], [])] :=
  c9_none_codec_identity true (fun _ => []) (fun b => Except.ok b)
    (fun b _ => Except.ok b) (fun _ => 0) [65] [66, 67] (by decide) (by decide)
